import Mathlib

/-!
Shallow embedding of `src/lib/disco/json.py`, a JSON shim that, at import
time, binds the module-level names `loads` and `dumps` to the first
available JSON library: the stdlib `json` module (located through
`sys.path` with the current working directory filtered out), then
`simplejson`, then `cjson` (whose entry points are named `decode` and
`encode`).
-/

namespace DiscoJson

/-- Errors a modelled Python operation can raise: `ImportError`,
`AttributeError`, or any other exception class (tagged by a code). -/
inductive PyError where
  | importError
  | attributeError
  | other (code : Nat)
deriving DecidableEq

/-- A Python module, seen as its attribute table: `attr n` is `some v`
when the module defines the attribute `n` with value `v`.  `α` is the
type of attribute values (function objects, for this shim). -/
structure PyModule (α : Type) where
  attr : String → Option α

/-- The environment the shim runs in: `sys.path`, `os.path.realpath`,
which directories contain a module of a given name (for
`imp.find_module`), what `imp.load_module` returns for the `json` module
found in a given directory, and the outcomes of `import simplejson` and
`import cjson`. -/
structure Env (α : Type) where
  sysPath : List String
  realpath : String → String
  hasModule : String → String → Bool
  loadFrom : String → Except PyError (PyModule α)
  simplejson : Except PyError (PyModule α)
  cjson : Except PyError (PyModule α)

variable {α : Type}

/-- `imp_path()` (lines 4-6): `sys.path` with every entry whose resolved
real path equals the real path of the current working directory filtered
out. -/
def imp_path (env : Env α) : List String :=
  let cwd := env.realpath "."
  env.sysPath.filter (fun path => env.realpath path != cwd)

/-- `imp.find_module(name, paths)`: the first directory on `paths` that
contains a module named `name`; raises `ImportError` when none does. -/
def find_module (env : Env α) (name : String) (paths : List String) :
    Except PyError String :=
  match paths.find? (fun dir => env.hasModule dir name) with
  | some dir => .ok dir
  | none => .error .importError

/-- Python attribute access `m.n`: raises `AttributeError` when the
attribute is missing. -/
def getattr (m : PyModule α) (n : String) : Except PyError α :=
  match m.attr n with
  | some v => .ok v
  | none => .error .attributeError

/-- Lines 9-10 of the source: `json = imp.load_module('json',
*imp.find_module('json', imp_path()))` followed by
`loads, dumps = json.loads, json.dumps`.  The tuple on the right is
evaluated before either name is assigned, so this step either yields
both functions or an error with nothing bound. -/
def jsonStep (env : Env α) : Except PyError (α × α) :=
  match find_module env "json" (imp_path env) with
  | .error e => .error e
  | .ok dir =>
    match env.loadFrom dir with
    | .error e => .error e
    | .ok json =>
      match getattr json "loads" with
      | .error e => .error e
      | .ok l =>
        match getattr json "dumps" with
        | .error e => .error e
        | .ok d => .ok (l, d)

/-- The module-level name bindings of the shim after the resolution
block ran: each of `loads` and `dumps` is either bound or still
unbound. -/
structure Bindings (α : Type) where
  loads : Option α
  dumps : Option α
deriving DecidableEq

/-- Lines 15-16: `from cjson import decode as loads` then, as a separate
statement, `from cjson import encode as dumps`.  A `from`-import of a
missing attribute raises `ImportError`; the first statement assigns
`loads` before the second runs, and an error here has no surrounding
handler, so it propagates out of the module body.  `st` is the binding
state on entry; the result pairs the final state with the propagated
error, if any. -/
def cjsonStep (env : Env α) (st : Bindings α) : Bindings α × Option PyError :=
  match env.cjson with
  | .error e => (st, some e)
  | .ok m =>
    match m.attr "decode" with
    | none => (st, some .importError)
    | some l =>
      match m.attr "encode" with
      | none => (⟨some l, st.dumps⟩, some .importError)
      | some d => (⟨some l, some d⟩, none)

/-- Lines 12-16: `from simplejson import loads, dumps` inside a
`try`/`except ImportError` whose handler is the cjson stage.  The
`from`-import binds `loads` before attempting `dumps`; any
`ImportError` (module absent, or a listed name missing) is caught and
control passes to the cjson stage with the bindings made so far; any
other error propagates. -/
def simplejsonStep (env : Env α) : Bindings α × Option PyError :=
  match env.simplejson with
  | .error .importError => cjsonStep env ⟨none, none⟩
  | .error e => (⟨none, none⟩, some e)
  | .ok m =>
    match m.attr "loads" with
    | none => cjsonStep env ⟨none, none⟩
    | some l =>
      match m.attr "dumps" with
      | none => cjsonStep env ⟨some l, none⟩
      | some d => (⟨some l, some d⟩, none)

/-- Lines 8-16, the whole resolution block: try the `json` step; on
`ImportError` (and only on `ImportError`) fall back to the simplejson
step; any other error propagates with nothing bound.  The result is the
final binding state together with the error, if any, that escapes the
module body (making the import of this module fail). -/
def resolve (env : Env α) : Bindings α × Option PyError :=
  match jsonStep env with
  | .ok ld => (⟨some ld.1, some ld.2⟩, none)
  | .error .importError => simplejsonStep env
  | .error e => (⟨none, none⟩, some e)

/-- `f` is the parse entry point of one of the three libraries the shim
can select from: the `loads` attribute of a loadable `json` module, the
`loads` attribute of `simplejson`, or the `decode` attribute of
`cjson`. -/
def libLoads (env : Env α) (f : α) : Prop :=
  (∃ dir m, env.loadFrom dir = .ok m ∧ m.attr "loads" = some f) ∨
  (∃ m, env.simplejson = .ok m ∧ m.attr "loads" = some f) ∨
  (∃ m, env.cjson = .ok m ∧ m.attr "decode" = some f)

/-- `g` is the serialize entry point of one of the three libraries the
shim can select from. -/
def libDumps (env : Env α) (g : α) : Prop :=
  (∃ dir m, env.loadFrom dir = .ok m ∧ m.attr "dumps" = some g) ∨
  (∃ m, env.simplejson = .ok m ∧ m.attr "dumps" = some g) ∨
  (∃ m, env.cjson = .ok m ∧ m.attr "encode" = some g)

/-- `(f, g)` is the parse/serialize pair of a single one of the three
candidate libraries. -/
def LibPair (env : Env α) (f g : α) : Prop :=
  (∃ dir m, env.loadFrom dir = .ok m ∧
    m.attr "loads" = some f ∧ m.attr "dumps" = some g) ∨
  (∃ m, env.simplejson = .ok m ∧
    m.attr "loads" = some f ∧ m.attr "dumps" = some g) ∨
  (∃ m, env.cjson = .ok m ∧
    m.attr "decode" = some f ∧ m.attr "encode" = some g)

/-! Concrete sample environments, used by the witness theorems.
Attribute values are tagged with small numbers standing for distinct
function objects. -/

/-- A stdlib `json` module whose `loads` is tagged 1 and `dumps` 2. -/
def jsonMod : PyModule Nat :=
  ⟨fun n => if n = "loads" then some 1 else if n = "dumps" then some 2 else none⟩

/-- A `simplejson` module whose `loads` is tagged 3 and `dumps` 4. -/
def sjMod : PyModule Nat :=
  ⟨fun n => if n = "loads" then some 3 else if n = "dumps" then some 4 else none⟩

/-- A `cjson` module whose `decode` is tagged 5 and `encode` 6. -/
def cjMod : PyModule Nat :=
  ⟨fun n => if n = "decode" then some 5 else if n = "encode" then some 6 else none⟩

/-- A defective `cjson` module providing `decode` but no `encode`. -/
def cjHalf : PyModule Nat :=
  ⟨fun n => if n = "decode" then some 5 else none⟩

/-- A realpath resolving `.` to `/cwd` and fixing every other string. -/
def rpW : String → String := fun s => if s = "." then "/cwd" else s

/-- Only `/usr/lib` contains a module named `json`. -/
def hasW : String → String → Bool := fun dir n => dir == "/usr/lib" && n == "json"

/-- Loading succeeds exactly from `/usr/lib`, yielding `jsonMod`. -/
def loadW : String → Except PyError (PyModule Nat) :=
  fun dir => if dir = "/usr/lib" then .ok jsonMod else .error .importError

/-- The sample `sys.path`: the working directory followed by `/usr/lib`. -/
def pathsW : List String := ["/cwd", "/usr/lib"]

/-- No directory contains a module named `json`. -/
def hasNone : String → String → Bool := fun _ _ => false

/-- All three libraries present. -/
def envAll : Env Nat := ⟨pathsW, rpW, hasW, loadW, .ok sjMod, .ok cjMod⟩

/-- Like `envAll` but both fallback imports blow up with a non-import
error; resolution must never reach them. -/
def envPoison : Env Nat :=
  ⟨pathsW, rpW, hasW, loadW, .error (.other 99), .error (.other 98)⟩

/-- No `json` on the search path; `simplejson` and `cjson` present. -/
def envSj : Env Nat := ⟨pathsW, rpW, hasNone, loadW, .ok sjMod, .ok cjMod⟩

/-- Only `cjson` present. -/
def envCj : Env Nat :=
  ⟨pathsW, rpW, hasNone, loadW, .error .importError, .ok cjMod⟩

/-- No candidate library present at all. -/
def envNone : Env Nat :=
  ⟨pathsW, rpW, hasNone, loadW, .error .importError, .error .importError⟩

/-- `json` is found but loading it raises a non-import error. -/
def envBroken : Env Nat :=
  ⟨pathsW, rpW, hasW, fun _ => .error (.other 7), .ok sjMod, .ok cjMod⟩

/-- Like `envBroken` but with different fallback outcomes. -/
def envBroken2 : Env Nat :=
  ⟨pathsW, rpW, hasW, fun _ => .error (.other 7), .error (.other 99), .error (.other 98)⟩

/-- Only `cjson` present, and it lacks `encode`. -/
def envC10 : Env Nat :=
  ⟨pathsW, rpW, hasNone, loadW, .error .importError, .ok cjHalf⟩

/-- Trivial application semantics used by the round-trip witness: a
tagged function applied to a value; tag 3 and tag 4 stand for
`simplejson.loads` and `simplejson.dumps`, modelled as mutually inverse
identities. -/
def applyW : Nat → Nat → Nat := fun _ v => v

/-! Helper lemmas about the individual resolution steps. -/

theorem getattr_ok (m : PyModule α) (n : String) (v : α) :
    getattr m n = .ok v ↔ m.attr n = some v := by
  unfold getattr
  cases h : m.attr n <;> simp

theorem jsonStep_ok_inv (env : Env α) (l d : α) (h : jsonStep env = .ok (l, d)) :
    ∃ dir m, find_module env "json" (imp_path env) = .ok dir ∧
      env.loadFrom dir = .ok m ∧ m.attr "loads" = some l ∧ m.attr "dumps" = some d := by
  unfold jsonStep at h
  cases hf : find_module env "json" (imp_path env) with
  | error e => rw [hf] at h; simp at h
  | ok dir =>
    rw [hf] at h
    dsimp only at h
    cases hl : env.loadFrom dir with
    | error e => rw [hl] at h; simp at h
    | ok m =>
      rw [hl] at h
      dsimp only at h
      cases ha : getattr m "loads" with
      | error e => rw [ha] at h; simp at h
      | ok l2 =>
        rw [ha] at h
        dsimp only at h
        cases hb : getattr m "dumps" with
        | error e => rw [hb] at h; simp at h
        | ok d2 =>
          rw [hb] at h
          simp at h
          exact ⟨dir, m, rfl, hl, by rw [← h.1]; exact (getattr_ok m "loads" l2).mp ha,
            by rw [← h.2]; exact (getattr_ok m "dumps" d2).mp hb⟩

theorem jsonStep_congr (env2 env : Env α)
    (hs : env2.sysPath = env.sysPath) (hr : env2.realpath = env.realpath)
    (hm : env2.hasModule = env.hasModule) (hl : env2.loadFrom = env.loadFrom) :
    jsonStep env2 = jsonStep env := by
  unfold jsonStep find_module imp_path
  simp only [hs, hr, hm, hl]

theorem resolve_eq_of_json (env : Env α) (ld : α × α) (hj : jsonStep env = .ok ld) :
    resolve env = (⟨some ld.1, some ld.2⟩, none) := by
  unfold resolve
  rw [hj]

theorem resolve_eq_of_importError (env : Env α)
    (hj : jsonStep env = .error .importError) :
    resolve env = simplejsonStep env := by
  unfold resolve
  rw [hj]

theorem resolve_eq_of_otherError (env : Env α) (e : PyError)
    (hj : jsonStep env = .error e) (hne : e ≠ .importError) :
    resolve env = (⟨none, none⟩, some e) := by
  cases e with
  | importError => exact absurd rfl hne
  | attributeError => unfold resolve; rw [hj]
  | other c => unfold resolve; rw [hj]

theorem cjsonStep_ok_inv (env : Env α) (st : Bindings α) (l d : α)
    (h : cjsonStep env st = (⟨some l, some d⟩, none)) :
    ∃ m, env.cjson = .ok m ∧ m.attr "decode" = some l ∧ m.attr "encode" = some d := by
  unfold cjsonStep at h
  cases hc : env.cjson with
  | error e => rw [hc] at h; simp at h
  | ok m =>
    rw [hc] at h
    dsimp only at h
    cases ha : m.attr "decode" with
    | none => rw [ha] at h; simp at h
    | some l2 =>
      rw [ha] at h
      dsimp only at h
      cases hb : m.attr "encode" with
      | none => rw [hb] at h; simp at h
      | some d2 =>
        rw [hb] at h
        simp at h
        exact ⟨m, rfl, by rw [ha, h.1], by rw [hb, h.2]⟩

theorem simplejsonStep_ok_inv (env : Env α) (l d : α)
    (h : simplejsonStep env = (⟨some l, some d⟩, none)) :
    (∃ m, env.simplejson = .ok m ∧ m.attr "loads" = some l ∧ m.attr "dumps" = some d) ∨
    (∃ m, env.cjson = .ok m ∧ m.attr "decode" = some l ∧ m.attr "encode" = some d) := by
  unfold simplejsonStep at h
  cases hm : env.simplejson with
  | error e =>
    rw [hm] at h
    cases e with
    | importError => exact .inr (cjsonStep_ok_inv env ⟨none, none⟩ l d h)
    | attributeError => simp at h
    | other c => simp at h
  | ok m =>
    rw [hm] at h
    dsimp only at h
    cases ha : m.attr "loads" with
    | none =>
      rw [ha] at h
      exact .inr (cjsonStep_ok_inv env ⟨none, none⟩ l d h)
    | some l2 =>
      rw [ha] at h
      dsimp only at h
      cases hb : m.attr "dumps" with
      | none =>
        rw [hb] at h
        exact .inr (cjsonStep_ok_inv env ⟨some l2, none⟩ l d h)
      | some d2 =>
        rw [hb] at h
        simp at h
        exact .inl ⟨m, rfl, by rw [ha, h.1], by rw [hb, h.2]⟩

theorem resolve_ok_inv (env : Env α) (l d : α)
    (h : resolve env = (⟨some l, some d⟩, none)) : LibPair env l d := by
  unfold resolve at h
  cases hj : jsonStep env with
  | ok ld =>
    rw [hj] at h
    obtain ⟨dir, m, hf, hl2, ha, hb⟩ := jsonStep_ok_inv env ld.1 ld.2 hj
    simp at h
    exact .inl ⟨dir, m, hl2, by rw [ha, h.1], by rw [hb, h.2]⟩
  | error e =>
    rw [hj] at h
    cases e with
    | importError => exact .inr (simplejsonStep_ok_inv env l d h)
    | attributeError => simp at h
    | other c => simp at h

theorem cjsonStep_loads_src (env : Env α) (st : Bindings α) (f : α)
    (h : (cjsonStep env st).1.loads = some f) :
    st.loads = some f ∨ ∃ m, env.cjson = .ok m ∧ m.attr "decode" = some f := by
  unfold cjsonStep at h
  cases hc : env.cjson with
  | error e => rw [hc] at h; exact .inl h
  | ok m =>
    rw [hc] at h
    dsimp only at h
    cases ha : m.attr "decode" with
    | none => rw [ha] at h; exact .inl h
    | some l2 =>
      rw [ha] at h
      dsimp only at h
      cases hb : m.attr "encode" with
      | none =>
        rw [hb] at h
        simp at h
        exact .inr ⟨m, rfl, by rw [ha, h]⟩
      | some d2 =>
        rw [hb] at h
        simp at h
        exact .inr ⟨m, rfl, by rw [ha, h]⟩

theorem cjsonStep_dumps_src (env : Env α) (st : Bindings α) (f : α)
    (h : (cjsonStep env st).1.dumps = some f) :
    st.dumps = some f ∨ ∃ m, env.cjson = .ok m ∧ m.attr "encode" = some f := by
  unfold cjsonStep at h
  cases hc : env.cjson with
  | error e => rw [hc] at h; exact .inl h
  | ok m =>
    rw [hc] at h
    dsimp only at h
    cases ha : m.attr "decode" with
    | none => rw [ha] at h; exact .inl h
    | some l2 =>
      rw [ha] at h
      dsimp only at h
      cases hb : m.attr "encode" with
      | none =>
        rw [hb] at h
        exact .inl h
      | some d2 =>
        rw [hb] at h
        simp at h
        exact .inr ⟨m, rfl, by rw [hb, h]⟩

theorem simplejsonStep_loads_src (env : Env α) (f : α)
    (h : (simplejsonStep env).1.loads = some f) :
    (∃ m, env.simplejson = .ok m ∧ m.attr "loads" = some f) ∨
    (∃ m, env.cjson = .ok m ∧ m.attr "decode" = some f) := by
  unfold simplejsonStep at h
  cases hm : env.simplejson with
  | error e =>
    rw [hm] at h
    cases e with
    | importError =>
      rcases cjsonStep_loads_src env ⟨none, none⟩ f h with h2 | h2
      · simp at h2
      · exact .inr h2
    | attributeError => simp at h
    | other c => simp at h
  | ok m =>
    rw [hm] at h
    dsimp only at h
    cases ha : m.attr "loads" with
    | none =>
      rw [ha] at h
      rcases cjsonStep_loads_src env ⟨none, none⟩ f h with h2 | h2
      · simp at h2
      · exact .inr h2
    | some l2 =>
      rw [ha] at h
      dsimp only at h
      cases hb : m.attr "dumps" with
      | none =>
        rw [hb] at h
        rcases cjsonStep_loads_src env ⟨some l2, none⟩ f h with h2 | h2
        · simp at h2; exact .inl ⟨m, rfl, by rw [ha, h2]⟩
        · exact .inr h2
      | some d2 =>
        rw [hb] at h
        simp at h
        exact .inl ⟨m, rfl, by rw [ha, h]⟩

theorem simplejsonStep_dumps_src (env : Env α) (f : α)
    (h : (simplejsonStep env).1.dumps = some f) :
    (∃ m, env.simplejson = .ok m ∧ m.attr "dumps" = some f) ∨
    (∃ m, env.cjson = .ok m ∧ m.attr "encode" = some f) := by
  unfold simplejsonStep at h
  cases hm : env.simplejson with
  | error e =>
    rw [hm] at h
    cases e with
    | importError =>
      rcases cjsonStep_dumps_src env ⟨none, none⟩ f h with h2 | h2
      · simp at h2
      · exact .inr h2
    | attributeError => simp at h
    | other c => simp at h
  | ok m =>
    rw [hm] at h
    dsimp only at h
    cases ha : m.attr "loads" with
    | none =>
      rw [ha] at h
      rcases cjsonStep_dumps_src env ⟨none, none⟩ f h with h2 | h2
      · simp at h2
      · exact .inr h2
    | some l2 =>
      rw [ha] at h
      dsimp only at h
      cases hb : m.attr "dumps" with
      | none =>
        rw [hb] at h
        rcases cjsonStep_dumps_src env ⟨some l2, none⟩ f h with h2 | h2
        · simp at h2
        · exact .inr h2
      | some d2 =>
        rw [hb] at h
        simp at h
        exact .inl ⟨m, rfl, by rw [hb, h]⟩

/-! The claims. -/

/-- C1: resolution strategies run in strict priority order with the
`json` module first; whenever the preferred `json` module is found and
loads successfully, it determines the binding and neither
fallback import is ever attempted — the outcome is the same for any environment
that agrees on the `json`-related fields but has arbitrary (even
crashing) `simplejson` and `cjson` outcomes. -/
theorem c1_json_preferred (env env2 : Env α) (l d : α)
    (h : jsonStep env = .ok (l, d))
    (hs : env2.sysPath = env.sysPath) (hr : env2.realpath = env.realpath)
    (hm : env2.hasModule = env.hasModule) (hl : env2.loadFrom = env.loadFrom) :
    resolve env = (⟨some l, some d⟩, none) ∧
    resolve env2 = (⟨some l, some d⟩, none) := by
  have h2 : jsonStep env2 = .ok (l, d) := by
    rw [jsonStep_congr env2 env hs hr hm hl, h]
  exact ⟨resolve_eq_of_json env (l, d) h, resolve_eq_of_json env2 (l, d) h2⟩

theorem c1_witness :
    resolve envAll = (⟨some 1, some 2⟩, none) ∧
    resolve envPoison = (⟨some 1, some 2⟩, none) :=
  c1_json_preferred envAll envPoison 1 2 rfl rfl rfl rfl rfl

/-- C2: every `sys.path` entry whose resolved real path equals the
current working directory's resolved real path is excluded from the
search path used to locate the preferred `json` module, and the
directory `imp.find_module` selects therefore never resolves to the
working directory. -/
theorem c2_cwd_excluded (env : Env α) :
    (∀ p, p ∈ env.sysPath → env.realpath p = env.realpath "." → p ∉ imp_path env) ∧
    (∀ dir, find_module env "json" (imp_path env) = .ok dir →
      env.realpath dir ≠ env.realpath ".") := by
  have key : ∀ p, p ∈ imp_path env → env.realpath p ≠ env.realpath "." := by
    intro p hp he
    unfold imp_path at hp
    rw [List.mem_filter] at hp
    rw [he] at hp
    simp at hp
  refine ⟨fun p _ he hp => key p hp he, fun dir hdir => ?_⟩
  apply key
  unfold find_module at hdir
  cases hf : (imp_path env).find? (fun d => env.hasModule d "json") with
  | none => rw [hf] at hdir; simp at hdir
  | some d2 =>
    rw [hf] at hdir
    simp at hdir
    subst hdir
    exact List.mem_of_find?_eq_some hf

theorem c2_witness :
    "/cwd" ∉ imp_path envAll ∧ envAll.realpath "/usr/lib" ≠ envAll.realpath "." :=
  ⟨(c2_cwd_excluded envAll).1 "/cwd" (by decide) rfl,
   (c2_cwd_excluded envAll).2 "/usr/lib" rfl⟩

/-- C3: when locating/loading the preferred `json` module fails with
an import error and `simplejson` is importable and provides `loads` and
`dumps`, resolution binds both names to simplejson's entry points and
the module body finishes without error. -/
theorem c3_simplejson_fallback (env : Env α) (m : PyModule α) (l d : α)
    (h1 : jsonStep env = .error .importError)
    (h2 : env.simplejson = .ok m)
    (hl : m.attr "loads" = some l) (hd : m.attr "dumps" = some d) :
    resolve env = (⟨some l, some d⟩, none) := by
  rw [resolve_eq_of_importError env h1]
  simp only [simplejsonStep, h2, hl, hd]

theorem c3_witness : resolve envSj = (⟨some 3, some 4⟩, none) :=
  c3_simplejson_fallback envSj sjMod 3 4 rfl rfl rfl rfl

/-- C4: when both the preferred `json` module and `simplejson` fail
to import but `cjson` is present with its differently named entry points,
resolution binds `loads` to cjson's `decode` and `dumps` to cjson's
`encode`. -/
theorem c4_cjson_fallback (env : Env α) (m : PyModule α) (l d : α)
    (h1 : jsonStep env = .error .importError)
    (h2 : env.simplejson = .error .importError)
    (h3 : env.cjson = .ok m)
    (hdec : m.attr "decode" = some l) (henc : m.attr "encode" = some d) :
    resolve env = (⟨some l, some d⟩, none) := by
  rw [resolve_eq_of_importError env h1]
  simp only [simplejsonStep, h2, cjsonStep, h3, hdec, henc]

theorem c4_witness : resolve envCj = (⟨some 5, some 6⟩, none) :=
  c4_cjson_fallback envCj cjMod 5 6 rfl rfl rfl rfl rfl

/-- C5: when all three resolution strategies fail with an import error,
the module body fails with an import error that propagates to
the importer, and neither `loads` nor `dumps` is bound; there is no further
fallback. -/
theorem c5_all_missing (env : Env α)
    (h1 : jsonStep env = .error .importError)
    (h2 : env.simplejson = .error .importError)
    (h3 : env.cjson = .error .importError) :
    resolve env = (⟨none, none⟩, some .importError) := by
  rw [resolve_eq_of_importError env h1]
  simp only [simplejsonStep, h2, cjsonStep, h3]

theorem c5_witness : resolve envNone = (⟨none, none⟩, some .importError) :=
  c5_all_missing envNone rfl rfl rfl

/-- C6: the simplejson fallback runs exactly when the `json` step
raises an import error; any other error from locating, loading, or
binding the preferred module propagates with nothing bound and without
any fallback being attempted — the outcome is the same for any
environment that agrees on the `json`-related fields but has arbitrary
`simplejson` and `cjson` outcomes. -/
theorem c6_only_import_error_caught (env env2 : Env α) (e : PyError)
    (hs : env2.sysPath = env.sysPath) (hr : env2.realpath = env.realpath)
    (hm : env2.hasModule = env.hasModule) (hl : env2.loadFrom = env.loadFrom) :
    (jsonStep env = .error .importError → resolve env = simplejsonStep env) ∧
    (jsonStep env = .error e → e ≠ .importError →
      resolve env = (⟨none, none⟩, some e) ∧
      resolve env2 = (⟨none, none⟩, some e)) := by
  refine ⟨fun h => resolve_eq_of_importError env h, fun h hne => ?_⟩
  have h2 : jsonStep env2 = .error e := by
    rw [jsonStep_congr env2 env hs hr hm hl, h]
  exact ⟨resolve_eq_of_otherError env e h hne,
    resolve_eq_of_otherError env2 e h2 hne⟩

theorem c6_witness :
    (resolve envSj = simplejsonStep envSj) ∧
    (resolve envBroken = (⟨none, none⟩, some (.other 7)) ∧
      resolve envBroken2 = (⟨none, none⟩, some (.other 7))) :=
  ⟨(c6_only_import_error_caught envSj envSj (.other 0) rfl rfl rfl rfl).1 rfl,
   (c6_only_import_error_caught envBroken envBroken2 (.other 7)
      rfl rfl rfl rfl).2 rfl (by decide)⟩

/-- C7: every function the resolution block binds is, unchanged, an
entry point of one of the three candidate libraries — the shim binds
the library functions directly, with no wrapper object in between, so
the bound names behave identically to the underlying functions. -/
theorem c7_direct_binding (env : Env α) :
    (∀ f, (resolve env).1.loads = some f → libLoads env f) ∧
    (∀ g, (resolve env).1.dumps = some g → libDumps env g) := by
  constructor
  · intro f h
    unfold resolve at h
    cases hj : jsonStep env with
    | ok ld =>
      rw [hj] at h
      simp at h
      obtain ⟨dir, m, hf, hl2, ha, hb⟩ := jsonStep_ok_inv env ld.1 ld.2 hj
      exact .inl ⟨dir, m, hl2, by rw [ha, h]⟩
    | error e =>
      rw [hj] at h
      cases e with
      | importError =>
        rcases simplejsonStep_loads_src env f h with h2 | h2
        · exact .inr (.inl h2)
        · exact .inr (.inr h2)
      | attributeError => simp at h
      | other c => simp at h
  · intro g h
    unfold resolve at h
    cases hj : jsonStep env with
    | ok ld =>
      rw [hj] at h
      simp at h
      obtain ⟨dir, m, hf, hl2, ha, hb⟩ := jsonStep_ok_inv env ld.1 ld.2 hj
      exact .inl ⟨dir, m, hl2, by rw [hb, h]⟩
    | error e =>
      rw [hj] at h
      cases e with
      | importError =>
        rcases simplejsonStep_dumps_src env g h with h2 | h2
        · exact .inr (.inl h2)
        · exact .inr (.inr h2)
      | attributeError => simp at h
      | other c => simp at h

theorem c7_witness : libLoads envAll 1 ∧ libDumps envAll 2 :=
  ⟨(c7_direct_binding envAll).1 1 rfl, (c7_direct_binding envAll).2 2 rfl⟩

/-- C8: when resolution succeeds, the bound pair is the parse/serialize
pair of a single underlying library, so any round-trip law the selected
implementation satisfies on a set of representable values transfers
unchanged to the bound `loads` and `dumps`. -/
theorem c8_roundtrip {U : Type} (env : Env α) (ap : α → U → U) (R : Set U)
    (l d : α) (h : resolve env = (⟨some l, some d⟩, none))
    (hlib : ∀ f g, LibPair env f g → ∀ v ∈ R, ap f (ap g v) = v) :
    ∀ v ∈ R, ap l (ap d v) = v :=
  hlib l d (resolve_ok_inv env l d h)

theorem c8_witness : applyW 3 (applyW 4 0) = 0 :=
  c8_roundtrip envSj applyW Set.univ 3 4 rfl (fun _ _ _ _ _ => rfl) 0 (Set.mem_univ 0)

/-- C9: the search-path computation is a pure function of `sys.path`:
the list it returns is a sublist of `sys.path` (so the retained entries
keep their relative order), and it holds exactly the `sys.path` entries
whose resolved real path differs from that of the current working
directory. -/
theorem c9_imp_path_pure (env : Env α) :
    List.Sublist (imp_path env) env.sysPath ∧
    (∀ p, p ∈ imp_path env ↔
      p ∈ env.sysPath ∧ env.realpath p ≠ env.realpath ".") := by
  constructor
  · exact List.filter_sublist env.sysPath
  · intro p
    simp [imp_path, List.mem_filter, bne_iff_ne]

theorem c9_witness :
    List.Sublist (imp_path envAll) envAll.sysPath ∧ "/usr/lib" ∈ imp_path envAll :=
  ⟨(c9_imp_path_pure envAll).1,
   ((c9_imp_path_pure envAll).2 "/usr/lib").mpr ⟨by decide, by decide⟩⟩

/-- C10: the cjson stage binds the two names in two separate
statements, `loads` first: when cjson is importable and provides
`decode` but not `encode`, the name `loads` is assigned before
the import error on `encode` propagates, so the module fails with `loads`
bound and `dumps` unbound. -/
theorem c10_cjson_nonatomic (env : Env α) (m : PyModule α) (l : α)
    (h1 : jsonStep env = .error .importError)
    (h2 : env.simplejson = .error .importError)
    (h3 : env.cjson = .ok m)
    (hdec : m.attr "decode" = some l) (henc : m.attr "encode" = none) :
    resolve env = (⟨some l, none⟩, some .importError) := by
  rw [resolve_eq_of_importError env h1]
  simp only [simplejsonStep, h2, cjsonStep, h3, hdec, henc]

theorem c10_witness : resolve envC10 = (⟨some 5, none⟩, some .importError) :=
  c10_cjson_nonatomic envC10 cjHalf 5 rfl rfl rfl rfl rfl

end DiscoJson
